import Mathlib

/-!
Verification of the btcli staking/subnet command layer.

The development shallowly embeds the logic of three source files:
`src/bittensor_cli/src/commands/stake/remove.py`,
`src/bittensor_cli/src/commands/stake/list.py` and
`src/bittensor_cli/src/commands/subnets.py`.

Conventions of the embedding:
- Balance amounts are fixed-point integers in rao (10^9 rao = 1 TAO), as in
  the `Balance` class; where Python derives a float `.tao` view we use `ℚ`.
- Python dicts become association lists, exceptions become `Except`, and
  printing becomes lists of message values.
- String comparison and JSON text are modelled over `List Char`, with
  Python's code-point order and `json` escaping rules made explicit.
-/

/-- Code-point lexicographic order on character lists, the order Python uses
to compare strings (`sorted` on formatted cell strings compares this way). -/
def charListLt : List Char → List Char → Bool
  | [], [] => false
  | [], _ :: _ => true
  | _ :: _, [] => false
  | a :: as, b :: bs =>
    if a.toNat < b.toNat then true
    else if b.toNat < a.toNat then false
    else charListLt as bs

/-- Python string comparison `s < t`. -/
def strLt (s t : String) : Bool := charListLt s.data t.data

/-- Python `str(n)` for a nonnegative integer. -/
def natStr (n : ℕ) : String := ⟨Nat.toDigits 10 n⟩

/-- Zero-pad a digit string on the left to `w` characters. -/
def padDigits (w : ℕ) (m : ℕ) : List Char :=
  List.replicate (w - (Nat.toDigits 10 m).length) '0' ++ Nat.toDigits 10 m

/-- Insert a thousands separator after every third digit, counting from the
least significant digit; input is the reversed digit list. -/
def commaRevAux : List Char → ℕ → List Char
  | [], _ => []
  | c :: rest, i =>
    if i % 3 = 0 ∧ i ≠ 0 then ',' :: c :: commaRevAux rest (i + 1)
    else c :: commaRevAux rest (i + 1)

/-- Python's comma grouping of an integer's digits (format spec `,`). -/
def commaGroup (ds : List Char) : List Char := (commaRevAux ds.reverse 0).reverse

/-- Format a rao amount (10^9 rao = 1 unit) the way Python's `"f-string with
.4f"` formats its float `.tao` view: four digits after the decimal point.
Rounding is to the nearest 4th decimal (ties round up; the tie case cannot
arise from the exactly-representable values used in the claims). -/
def fixed4Rao (rao : ℕ) : String :=
  let n := (rao + 50000) / 100000
  ⟨Nat.toDigits 10 (n / 10000) ++ '.' :: padDigits 4 (n % 10000)⟩

/-- Same as `fixed4Rao` with Python's comma grouping (format spec `,.4f`). -/
def commaFixed4Rao (rao : ℕ) : String :=
  let n := (rao + 50000) / 100000
  ⟨commaGroup (Nat.toDigits 10 (n / 10000)) ++ '.' :: padDigits 4 (n % 10000)⟩

/-- Format a nonnegative rational to `prec` digits after the decimal point
(nearest, ties up), as Python formats a float with `.precf`. -/
def ratFixedStr (q : ℚ) (prec : ℕ) : String :=
  let scale : ℤ := (10 : ℤ) ^ prec
  let n := ((2 * q.num * scale + (q.den : ℤ)) / (2 * (q.den : ℤ))).toNat
  ⟨Nat.toDigits 10 (n / 10 ^ prec) ++ '.' :: padDigits prec (n % 10 ^ prec)⟩

/-- A subnet record as consumed by `subnets_list` in `subnets.py`: the fields
read at lines 168-190. Balance-valued fields are in rao; `priceRao` is the
chain-provided pool price in rao per alpha. -/
structure SubnetData where
  netuid : ℕ
  symbol : String
  emissionRao : ℕ
  alphaOutRao : ℕ
  taoInRao : ℕ
  alphaInRao : ℕ
  priceRao : ℕ
  blocksSinceLastStep : ℕ
  tempo : ℕ
deriving DecidableEq, Repr

/-- The row tuple built for one subnet by `subnets_list` (subnets.py lines
168-190), as the list of its nine formatted cells.  `gw` is the fetched
global-weights map (`global_weights.get(netuid)`), in units of 10^-9. -/
def subnetListRow (gw : ℕ → Option ℕ) (s : SubnetData) : List String :=
  let symbol := s.symbol ++ "‎"
  let emissionRao := if s.netuid = 0 then 0 else s.emissionRao
  [ natStr s.netuid,
    "[light_goldenrod1]" ++ s.symbol ++ "[light_goldenrod1]",
    "τ " ++ fixed4Rao emissionRao,
    commaFixed4Rao s.alphaOutRao ++ " " ++ symbol,
    "τ " ++ commaFixed4Rao s.taoInRao,
    commaFixed4Rao s.alphaInRao ++ " " ++ symbol,
    fixed4Rao s.priceRao ++ " τ/" ++ symbol,
    natStr s.blocksSinceLastStep ++ "/" ++ natStr s.tempo,
    match gw s.netuid with
    | some w => fixed4Rao w
    | none => "N/A" ]

/-- The sort key used at subnets.py line 244: the third cell of the row,
which is the formatted emission string. -/
def emissionCellOf (row : List String) : String := row.getD 2 ""

/-- Row order of the stable descending sort `sorted(rows, key, reverse=True)`:
an earlier row stays before a later one exactly when the later one's key is
not strictly greater. -/
def rowDescBy (a b : List String) : Prop :=
  strLt (emissionCellOf a) (emissionCellOf b) = false

instance : DecidableRel rowDescBy := fun a b =>
  inferInstanceAs (Decidable (strLt (emissionCellOf a) (emissionCellOf b) = false))

/-- The displayed row order of `subnets_list` (subnets.py lines 243-248): the
first fetched subnet's row is kept first and the remaining rows are sorted by
`sorted(rows, key=lambda x: x with index 2, reverse=True)`, a stable
descending sort on the formatted emission string.  `List.insertionSort` with
`rowDescBy` computes exactly that stable descending order. -/
def sortedSubnetRows (gw : ℕ → Option ℕ) (subnets : List SubnetData) :
    List (List String) :=
  match subnets.map (subnetListRow gw) with
  | [] => []
  | r0 :: rest => r0 :: List.insertionSort rowDescBy rest

/-- Per-subnet dynamic pool information as used by `remove.py` and `list.py`:
reserves and the dynamic-pricing flag (spec section 3, "Subnet pool /
dynamic info").  Reserve fields carry the float `.tao` view as rationals. -/
structure DynamicInfo where
  netuid : ℕ
  tao_in : ℚ
  alpha_in : ℚ
  alpha_out : ℚ
  is_dynamic : Bool
deriving DecidableEq, Repr

/-- Modelled from the spec: the price of a subnet's alpha token, "derived as
the reserve ratio" for a dynamic subnet and fixed 1:1 for a non-dynamic
(root) subnet.  The `DynamicInfo.price` attribute itself is not under
`src/`; only its users are. -/
def DynamicInfo.price (si : DynamicInfo) : ℚ :=
  if si.is_dynamic then si.tao_in / si.alpha_in else 1

/-- Modelled from the spec: `DynamicInfo.alpha_to_tao`, the "no-slippage
TAO-equivalent value (linear at current price)" (spec section 4.1); the
method is not under `src/`. -/
def alpha_to_tao (si : DynamicInfo) (amount : ℚ) : ℚ :=
  si.price * amount

/-- Modelled from the spec: `DynamicInfo.alpha_to_tao_with_slippage`, the
constant-product swap of section 4.1; the method is not under `src/`.  For a
dynamic subnet the alpha amount enters the pool and TAO leaves so that the
product of reserves is preserved; slippage is the shortfall against the
linear value, reported also as a percentage ("1 - swap / exchange value",
list.py line 658).  For a non-dynamic subnet "conversion is defined as 1:1
with zero slippage".  Returns (tao received, slippage amount, slippage %).  -/
def alpha_to_tao_with_slippage (si : DynamicInfo) (amount : ℚ) : ℚ × ℚ × ℚ :=
  if si.is_dynamic then
    let new_alpha_in := si.alpha_in + amount
    let new_tao_reserve := si.tao_in * si.alpha_in / new_alpha_in
    let tao_returned := si.tao_in - new_tao_reserve
    let tao_ideal := alpha_to_tao si amount
    let slippage := tao_ideal - tao_returned
    let pct := if slippage + tao_returned ≠ 0
      then 100 * slippage / (slippage + tao_returned) else 0
    (tao_returned, slippage, pct)
  else
    (amount, 0, 0)

/-- remove.py lines 713-736, `_calculate_slippage`: received amount, the
formatted slippage-percent cell, and the float slippage percent.  For a
non-dynamic subnet the percent is forced to 0 and the cell shows N/A. -/
def calculate_slippage (si : DynamicInfo) (amount : ℚ) : ℚ × String × ℚ :=
  let r := alpha_to_tao_with_slippage si amount
  if si.is_dynamic then
    (r.1, ratFixedStr r.2.2 4 ++ " %", r.2.2)
  else
    (r.1, "[red]N/A[/red]", 0)

/-- list.py lines 180-184 (`create_table`): the slippage-percentage cell text
(colour markup aside) is the formatted percent for a dynamic subnet and the
constant "0.000%" otherwise. -/
def slippagePercentCell (si : DynamicInfo) (pct : ℚ) : String :=
  if si.is_dynamic then ratFixedStr pct 3 ++ "%" else "0.000%"

/-- list.py lines 196-199 and 328-329: the issuance used for the ownership
share, `alpha_out` for a dynamic subnet and the TAO reserve otherwise. -/
def issuanceOf (si : DynamicInfo) : ℚ :=
  if si.is_dynamic then si.alpha_out else si.tao_in

/-- list.py lines 204-217 (`create_table`): the TAO-ownership value
contributed by one stake position of `alphaTao` alpha.  Positions at or
below the display threshold contribute nothing (their row is skipped), and a
zero issuance yields zero instead of a division. -/
def taoOwnershipStatic (si : DynamicInfo) (alphaTao : ℚ) : ℚ :=
  if alphaTao > 9 / 100000 then
    if issuanceOf si ≠ 0 then alphaTao / issuanceOf si * si.tao_in else 0
  else 0

/-- list.py lines 330-336 (`create_live_table`): the TAO-ownership value of
one position in the live table; computed only when the position is above the
threshold and the issuance is nonzero, else zero. -/
def taoOwnershipLive (si : DynamicInfo) (alphaTao : ℚ) : ℚ :=
  if alphaTao > 9 / 100000 ∧ issuanceOf si ≠ 0 then
    alphaTao / issuanceOf si * si.tao_in
  else 0

/-- One TAO in rao: the fixed-point scale of `Balance`. -/
def raoPerTao : ℕ := 1000000000

/-- The float `.tao` view of a rao amount. -/
def raoToTao (rao : ℕ) : ℚ := (rao : ℚ) / (raoPerTao : ℚ)

/-- remove.py lines 225-227: the limit price passed to the safe extrinsic,
`subnet_info.price.rao * (1 - rate_tolerance)` for a dynamic subnet and 1
otherwise (lines 228-230). -/
def priceWithTolerance (si : DynamicInfo) (rateTolerance : ℚ) : ℚ :=
  if si.is_dynamic then si.price * (raoPerTao : ℚ) * (1 - rateTolerance)
  else 1

/-- One queued unstake operation, the `base_unstake_op` dict of remove.py
lines 194-206 (with the safe-staking `price_with_tolerance` of line 232 when
present).  Amounts are rao; derived values are the float views. -/
structure UnstakeOp where
  netuid : ℕ
  hotkey_name : String
  hotkey_ss58 : String
  amount_to_unstake : ℕ
  current_stake_balance : ℕ
  received_amount : ℚ
  slippage_pct : String
  slippage_pct_float : ℚ
  price_with_tolerance : Option ℚ
deriving Repr, Inhabited

/-- The per-pair errors printed during collection (remove.py lines 150-152,
157-159 and 182-185); each is reported inline and the pair skipped. -/
inductive PlanError where
  | noStakeForHotkey (hotkey_ss58 : String) (netuid : ℕ)
  | noStakeToUnstake (hotkey_ss58 : String) (netuid : ℕ)
  | notEnoughStake (hotkey_ss58 : String) (netuid : ℕ)
deriving DecidableEq, Repr

/-- The stake map built at remove.py lines 111-117: hotkey ss58 to a map
from netuid to the current stake balance in rao. -/
def StakeMap : Type := List (String × List (ℕ × ℕ))

/-- remove.py lines 144-241, one iteration of the collection loop for a
given (hotkey, netuid) pair with an explicit requested amount: the pair is
validated (hotkey present in the stake map, a nonzero stake on the netuid,
requested amount within the stake) and on success the fully resolved
operation is produced; each failed check yields its inline error instead. -/
def planEntry (subnets : ℕ → DynamicInfo) (stakes : StakeMap)
    (safeStaking : Bool) (rateTolerance : ℚ) (amountRao : ℕ)
    (name : Option String) (ss58 : String) (netuid : ℕ) :
    Except PlanError UnstakeOp :=
  match stakes.lookup ss58 with
  | none => .error (.noStakeForHotkey ss58 netuid)
  | some perNetuid =>
    match perNetuid.lookup netuid with
    | none => .error (.noStakeToUnstake ss58 netuid)
    | some stakeRao =>
      if stakeRao = 0 then .error (.noStakeToUnstake ss58 netuid)
      else if stakeRao < amountRao then .error (.notEnoughStake ss58 netuid)
      else
        let si := subnets netuid
        let r := calculate_slippage si (raoToTao amountRao)
        .ok { netuid := netuid
              hotkey_name := name.getD ss58
              hotkey_ss58 := ss58
              amount_to_unstake := amountRao
              current_stake_balance := stakeRao
              received_amount := r.1
              slippage_pct := r.2.1
              slippage_pct_float := r.2.2
              price_with_tolerance :=
                if safeStaking then some (priceWithTolerance si rateTolerance)
                else none }

/-- remove.py lines 126-241: collect the unstake operations over the flat
list of (hotkey name, ss58, netuid) pairs, queueing one operation per valid
pair and one inline error per rejected pair; a rejected pair never stops the
pairs after it. -/
def collectUnstakeOps (subnets : ℕ → DynamicInfo) (stakes : StakeMap)
    (safeStaking : Bool) (rateTolerance : ℚ) (amountRao : ℕ) :
    List (Option String × String × ℕ) → List UnstakeOp × List PlanError
  | [] => ([], [])
  | (name, ss58, netuid) :: rest =>
    let acc := collectUnstakeOps subnets stakes safeStaking rateTolerance
      amountRao rest
    match planEntry subnets stakes safeStaking rateTolerance amountRao
      name ss58 netuid with
    | .ok op => (op :: acc.1, acc.2)
    | .error e => (acc.1, e :: acc.2)

/-- A composed chain call of the unstake flow: `remove_stake` carries no
price limit and no partial flag (remove.py lines 542-550), while
`remove_stake_limit` carries both (remove.py lines 639-649). -/
inductive ChainCall where
  | removeStake (hotkey : String) (netuid : ℕ) (amountUnstaked : ℕ)
  | removeStakeLimit (hotkey : String) (netuid : ℕ) (amountUnstaked : ℕ)
      (limitPrice : ℚ) (allowPartialFlag : Bool)
deriving Repr

/-- remove.py lines 271-305: which extrinsic a queued operation is submitted
through.  With safe staking, netuid 0 goes through the plain
`_unstake_extrinsic` and every other netuid through
`_safe_unstake_extrinsic` with the operation's price limit and the
partial-fill flag; without safe staking everything is plain. -/
def dispatchUnstakeOp (safeStaking : Bool) (allowPartialFlag : Bool)
    (op : UnstakeOp) : ChainCall :=
  if safeStaking then
    if op.netuid = 0 then
      .removeStake op.hotkey_ss58 op.netuid op.amount_to_unstake
    else
      .removeStakeLimit op.hotkey_ss58 op.netuid op.amount_to_unstake
        (op.price_with_tolerance.getD 1) allowPartialFlag
  else
    .removeStake op.hotkey_ss58 op.netuid op.amount_to_unstake

/-- An exception raised by `submit_extrinsic`: either the substrate client's
`SubstrateRequestException` or any other (unexpected) exception. -/
inductive SubmitExc where
  | substrateRequest (msg : String)
  | otherExc (msg : String)
deriving DecidableEq, Repr

/-- The response observed when submission itself did not raise: success or
an explicit failure message from the chain. -/
structure SubmitResponse where
  success : Bool
  errorMessage : String
deriving DecidableEq, Repr

/-- The user-visible reports of one extrinsic submission. -/
inductive ReportMsg where
  | finalized
  | failedWithError (msg : String)
  | priceToleranceExceeded
deriving DecidableEq, Repr

/-- Boolean infix test, Python's `pat in s` on strings. -/
def containsSeq (pat : List Char) : List Char → Bool
  | [] => pat.isEmpty
  | c :: rest => List.isPrefixOf pat (c :: rest) || containsSeq pat rest

/-- The rejection text remove.py line 660 looks for inside a
`SubstrateRequestException`. -/
def customError8 : String := "Custom error: 8"

/-- remove.py lines 555-590 (`_unstake_extrinsic`): the submission phase as
a function of its outcome.  The bare `except Exception` at line 589 catches
every exception, so the helper always returns its report messages;
`Except.error` would mean an exception escaped the helper. -/
def plainUnstakeSubmit (outcome : Except SubmitExc SubmitResponse) :
    Except SubmitExc (List ReportMsg) :=
  match outcome with
  | .error e =>
    match e with
    | .substrateRequest msg => .ok [.failedWithError msg]
    | .otherExc msg => .ok [.failedWithError msg]
  | .ok resp =>
    if resp.success then .ok [.finalized]
    else .ok [.failedWithError resp.errorMessage]

/-- remove.py lines 655-679 (`_safe_unstake_extrinsic`): the submission
phase as a function of its outcome.  Only `SubstrateRequestException` is
caught (line 659); a message containing "Custom error: 8" gets the tailored
price-tolerance report and any other gets the generic failure report, while
an exception of any other class is not handled and escapes the helper. -/
def safeUnstakeSubmit (outcome : Except SubmitExc SubmitResponse) :
    Except SubmitExc (List ReportMsg) :=
  match outcome with
  | .error e =>
    match e with
    | .substrateRequest msg =>
      if containsSeq customError8.data msg.data then
        .ok [.priceToleranceExceeded]
      else .ok [.failedWithError msg]
    | .otherExc msg => .error (.otherExc msg)
  | .ok resp =>
    if resp.success then .ok [.finalized]
    else .ok [.failedWithError resp.errorMessage]

/-- Outcome of `wallet.unlock_coldkey()`. -/
inductive UnlockResult where
  | ok
  | keyFileError
deriving DecidableEq, Repr

/-- remove.py lines 263-308: the execution phase of `unstake` after the
confirmation prompt.  On a `KeyFileError` the command prints the decryption
error and returns False with no call composed; otherwise every queued
operation is dispatched.  Result: (command result, composed calls, error
prints). -/
def executeUnstakeOps (unlock : UnlockResult) (safeStaking : Bool)
    (allowPartialFlag : Bool) (ops : List UnstakeOp) :
    Bool × List ChainCall × List String :=
  match unlock with
  | .keyFileError =>
    (false, [], ["Error decrypting coldkey (possibly incorrect password)"])
  | .ok =>
    (true, ops.map (dispatchUnstakeOp safeStaking allowPartialFlag), [])

/-- subnets.py lines 104-128 (`register_subnetwork_extrinsic`): the phase
from coldkey unlock onward.  A `KeyFileError` prints the decryption error
and returns False before any `register_network` call is composed. -/
def registerSubnetworkPhase (unlock : UnlockResult) (hotkey : String) :
    Bool × List (String × String) × List String :=
  match unlock with
  | .keyFileError =>
    (false, [], ["Error decrypting coldkey (possibly incorrect password)"])
  | .ok =>
    (true, [("register_network", hotkey)], [])

/-- Lowercase hex digit, as Python's `json` writes in a u-escape. -/
def hexDigitChar (n : ℕ) : Char :=
  if n < 10 then Char.ofNat (48 + n) else Char.ofNat (87 + n)

/-- The four hex digits of a code point below 0x10000. -/
def hex4 (n : ℕ) : List Char :=
  [hexDigitChar (n / 4096 % 16), hexDigitChar (n / 256 % 16),
   hexDigitChar (n / 16 % 16), hexDigitChar (n % 16)]

/-- Value of one hex digit accepted by Python's `json` u-escape reader
(the claims only need the lowercase digits the writer emits). -/
def hexVal (c : Char) : Option ℕ :=
  if '0' ≤ c ∧ c ≤ '9' then some (c.toNat - 48)
  else if 'a' ≤ c ∧ c ≤ 'f' then some (c.toNat - 87)
  else none

/-- Python `json.dumps` escaping of one character with the default
`ensure_ascii=True`: the seven short escapes, a u-escape for every other
character outside printable ASCII, and the character itself otherwise. -/
def escapeChar (c : Char) : List Char :=
  if c = '"' then ['\\', '"']
  else if c = '\\' then ['\\', '\\']
  else if c = Char.ofNat 8 then ['\\', 'b']
  else if c = Char.ofNat 12 then ['\\', 'f']
  else if c = Char.ofNat 10 then ['\\', 'n']
  else if c = Char.ofNat 13 then ['\\', 'r']
  else if c = Char.ofNat 9 then ['\\', 't']
  else if c.toNat < 32 ∨ 127 ≤ c.toNat then '\\' :: 'u' :: hex4 c.toNat
  else [c]

/-- The character denoted by a two-character escape read by `json.loads`. -/
def unescapeChar (e : Char) : Option Char :=
  if e = '"' then some '"'
  else if e = '\\' then some '\\'
  else if e = '/' then some '/'
  else if e = 'b' then some (Char.ofNat 8)
  else if e = 'f' then some (Char.ofNat 12)
  else if e = 'n' then some (Char.ofNat 10)
  else if e = 'r' then some (Char.ofNat 13)
  else if e = 't' then some (Char.ofNat 9)
  else none

/-- The escaped body of a JSON string literal. -/
def escBody (s : String) : List Char := (s.data.map escapeChar).flatten

/-- `json.dumps` of one string. -/
def dumpString (s : String) : List Char := '"' :: (escBody s ++ ['"'])

/-- Python's default `", "` item separator between dumped elements. -/
def sepJoin : List (List Char) → List Char
  | [] => []
  | x :: rest => x ++ (rest.map (fun y => ',' :: ' ' :: y)).flatten

/-- `json.dumps` of one row (a list of strings). -/
def dumpRow (r : List String) : List Char :=
  '[' :: (sepJoin (r.map dumpString) ++ [']'])

/-- `json.dumps(table_data)` for the metagraph cache (subnets.py line 823):
the rows are lists of cell strings. -/
def pyJsonDumps (t : List (List String)) : String :=
  ⟨'[' :: (sepJoin (t.map dumpRow) ++ [']'])⟩

/-- `json.loads` reading of a string-literal body up to its closing quote:
returns the decoded characters and the unread input. -/
def parseStrBody : List Char → Option (List Char × List Char)
  | [] => none
  | c :: rest =>
    if c = '"' then some ([], rest)
    else if c = '\\' then
      match rest with
      | [] => none
      | e :: rest2 =>
        if e = 'u' then
          match rest2 with
          | h1 :: h2 :: h3 :: h4 :: rest3 =>
            match hexVal h1, hexVal h2, hexVal h3, hexVal h4 with
            | some a, some b, some c2, some d =>
              let n := a * 4096 + b * 256 + c2 * 16 + d
              if n < 55296 ∨ (57344 ≤ n ∧ n < 1114112) then
                (parseStrBody rest3).map (fun p => (Char.ofNat n :: p.1, p.2))
              else none
            | _, _, _, _ => none
          | _ => none
        else
          match unescapeChar e with
          | some ch => (parseStrBody rest2).map (fun p => (ch :: p.1, p.2))
          | none => none
    else (parseStrBody rest).map (fun p => (c :: p.1, p.2))

/-- `json.loads` reading of the elements of a nonempty string array, after
the opening bracket; `fuel` bounds the number of elements. -/
def parseRowElems : ℕ → List Char → Option (List (List Char) × List Char)
  | 0, _ => none
  | _, [] => none
  | fuel + 1, c :: rest =>
    if c = '"' then
      match parseStrBody rest with
      | none => none
      | some (s, rest2) =>
        match rest2 with
        | ']' :: rest3 => some ([s], rest3)
        | ',' :: ' ' :: rest3 =>
          (parseRowElems fuel rest3).map (fun p => (s :: p.1, p.2))
        | _ => none
    else none

/-- `json.loads` reading of one row (an array of strings). -/
def parseRow (fuel : ℕ) : List Char → Option (List (List Char) × List Char)
  | '[' :: rest =>
    match rest with
    | ']' :: rest2 => some ([], rest2)
    | _ => parseRowElems fuel rest
  | _ => none

/-- `json.loads` reading of the rows of a nonempty outer array, after the
opening bracket; `rowFuel` bounds the per-row element count and `fuel` the
number of rows. -/
def parseTableElems (rowFuel : ℕ) :
    ℕ → List Char → Option (List (List String) × List Char)
  | 0, _ => none
  | fuel + 1, l =>
    match parseRow rowFuel l with
    | none => none
    | some (row, rest) =>
      let rowStrs := row.map (fun cs => (⟨cs⟩ : String))
      match rest with
      | ']' :: rest2 => some ([rowStrs], rest2)
      | ',' :: ' ' :: rest2 =>
        (parseTableElems rowFuel fuel rest2).map (fun p => (rowStrs :: p.1, p.2))
      | _ => none

/-- `json.loads(metadata_info with key "table_data")` (subnets.py line 853)
for the shape this cache stores: a list of rows of strings.  The whole
input must be consumed. -/
def pyJsonLoads (s : String) : Option (List (List String)) :=
  match s.data with
  | '[' :: ']' :: rest => if rest.isEmpty then some [] else none
  | '[' :: rest =>
    match parseTableElems s.data.length s.data.length rest with
    | some (t, []) => some t
    | _ => none
  | _ => none

/-- Concrete fixture: a dynamic-subnet map for exercising the safe-staking
path (every netuid mapped to the same dynamic pool). -/
def fixSubnets : ℕ → DynamicInfo := fun _ => ⟨3, 1000, 500, 2000, true⟩

/-- Concrete fixture: a stake map with two hotkeys. -/
def fixStakes : StakeMap := [("addr", [(3, 10000)]), ("addr2", [(1, 7)])]

/-- Concrete fixture: the operation the planner queues for hotkey "addr" on
netuid 3 with safe staking, tolerance 1/100 and requested amount 5000 rao. -/
def fixOp : UnstakeOp :=
  match planEntry fixSubnets fixStakes true (1 / 100) 5000 none "addr" 3 with
  | .ok op => op
  | .error _ => default

/-- Concrete fixture: the root subnet's record in `subnets_list` form. -/
def fixSn0 : SubnetData := ⟨0, "τ", 0, 0, 5000000000, 0, 1000000000, 3, 100⟩

/-- Concrete fixture: a subnet whose emission float view is 9.5. -/
def fixSnA : SubnetData :=
  ⟨1, "α", 9500000000, 1000000000, 2000000000, 3000000000, 666666666, 4, 360⟩

/-- Concrete fixture: a subnet whose emission float view is 10.25. -/
def fixSnB : SubnetData :=
  ⟨2, "β", 10250000000, 1000000000, 2000000000, 3000000000, 666666666, 5, 360⟩

/-- C1: for every unstake amount on a non-dynamic (fixed-rate, e.g. root)
subnet, the slippage computation used by the unstake planner
(`_calculate_slippage`) and the stake table returns slippage exactly zero
and a received TAO amount equal to the input amount (1:1 conversion). -/
theorem nondynamic_slippage_zero (si : DynamicInfo) (a pct : ℚ)
    (h : si.is_dynamic = false) :
    calculate_slippage si a = (a, "[red]N/A[/red]", 0)
    ∧ (alpha_to_tao_with_slippage si a).1 = a
    ∧ slippagePercentCell si pct = "0.000%" := by
  refine ⟨?_, ?_, ?_⟩ <;>
    simp [calculate_slippage, alpha_to_tao_with_slippage, slippagePercentCell, h]

/-- C1 witness: the root subnet example of the spec, 5 TAO unstaked comes
back as exactly 5 TAO with zero slippage. -/
theorem nondynamic_slippage_zero_witness :
    calculate_slippage ⟨0, 100, 100, 0, false⟩ 5 = (5, "[red]N/A[/red]", 0)
    ∧ (alpha_to_tao_with_slippage ⟨0, 100, 100, 0, false⟩ 5).1 = 5
    ∧ slippagePercentCell ⟨0, 100, 100, 0, false⟩ 0 = "0.000%" :=
  nondynamic_slippage_zero ⟨0, 100, 100, 0, false⟩ 5 0 rfl

/-- C5: a stake position on a subnet whose issuance is zero contributes a
TAO-ownership share of exactly zero, in both the static stake table and the
live stake table; the division is never taken. -/
theorem zero_issuance_zero_ownership (si : DynamicInfo) (alphaTao : ℚ)
    (h : issuanceOf si = 0) :
    taoOwnershipStatic si alphaTao = 0 ∧ taoOwnershipLive si alphaTao = 0 := by
  constructor <;> simp [taoOwnershipStatic, taoOwnershipLive, h]

/-- C5 witness: a dynamic subnet with `alpha_out = 0` yields a zero
ownership share for a position of one alpha. -/
theorem zero_issuance_zero_ownership_witness :
    taoOwnershipStatic ⟨1, 5, 7, 0, true⟩ 1 = 0
    ∧ taoOwnershipLive ⟨1, 5, 7, 0, true⟩ 1 = 0 :=
  zero_issuance_zero_ownership ⟨1, 5, 7, 0, true⟩ 1 rfl

/-- C7: if unlocking the coldkey raises a `KeyFileError`, both the unstake
command and the subnet registration extrinsic print the decryption error
and return False with no extrinsic composed or submitted. -/
theorem keyfile_error_aborts (safe ap : Bool) (ops : List UnstakeOp)
    (hotkey : String) :
    executeUnstakeOps .keyFileError safe ap ops =
      (false, [], ["Error decrypting coldkey (possibly incorrect password)"])
    ∧ registerSubnetworkPhase .keyFileError hotkey =
      (false, [], ["Error decrypting coldkey (possibly incorrect password)"]) :=
  ⟨rfl, rfl⟩

/-- C9: with safe staking enabled, a queued operation on netuid 0 is
submitted through the plain `remove_stake` call, which carries no price
limit and no partial flag, and an operation on any other netuid through
`remove_stake_limit`. -/
theorem safe_staking_netuid_zero_dispatch (ap : Bool) (op : UnstakeOp) :
    (op.netuid = 0 → dispatchUnstakeOp true ap op =
      .removeStake op.hotkey_ss58 op.netuid op.amount_to_unstake)
    ∧ (op.netuid ≠ 0 → dispatchUnstakeOp true ap op =
      .removeStakeLimit op.hotkey_ss58 op.netuid op.amount_to_unstake
        (op.price_with_tolerance.getD 1) ap) := by
  constructor <;> intro h <;> simp [dispatchUnstakeOp, h]

/-- C9 witness: a root-subnet op goes through the plain call, a netuid-3 op
through the limit call. -/
theorem safe_staking_netuid_zero_dispatch_witness :
    dispatchUnstakeOp true false ⟨0, "hk", "addr", 5, 10, 0, "", 0, some 2⟩ =
      .removeStake "addr" 0 5
    ∧ dispatchUnstakeOp true true ⟨3, "hk", "addr", 5, 10, 0, "", 0, some 2⟩ =
      .removeStakeLimit "addr" 3 5 2 true :=
  ⟨(safe_staking_netuid_zero_dispatch false ⟨0, "hk", "addr", 5, 10, 0, "", 0, some 2⟩).1 rfl,
   (safe_staking_netuid_zero_dispatch true ⟨3, "hk", "addr", 5, 10, 0, "", 0, some 2⟩).2
     (by decide)⟩

/-- C6 counterexample: an exception that is not a
`SubstrateRequestException`, raised by `submit_extrinsic` in the safe
helper, is not caught there: `_safe_unstake_extrinsic` only handles
`SubstrateRequestException`, so the claim that every generic exception is
caught by both helpers is false. -/
theorem generic_exception_escapes_safe_cex :
    ¬ ((safeUnstakeSubmit (.error (.otherExc "boom"))).isOk = true
       ∧ (plainUnstakeSubmit (.error (.otherExc "boom"))).isOk = true) := by
  decide

/-- C6 (amended): every exception raised while submitting through the plain
helper is caught and reported, and so is every `SubstrateRequestException`
in the safe helper; but an exception of any other class propagates out of
the safe helper unchanged. -/
theorem submit_exception_handling (e : SubmitExc) (msg : String) :
    (plainUnstakeSubmit (.error e)).isOk = true
    ∧ (safeUnstakeSubmit (.error (.substrateRequest msg))).isOk = true
    ∧ safeUnstakeSubmit (.error (.otherExc msg)) = .error (.otherExc msg) := by
  refine ⟨?_, ?_, rfl⟩
  · cases e <;> rfl
  · unfold safeUnstakeSubmit
    rcases h : containsSeq customError8.data msg.data <;> simp [h] <;> rfl


/-- Helper: the tuple produced by the swap on a dynamic subnet, written out. -/
theorem alpha_to_tao_with_slippage_dynamic (si : DynamicInfo) (a : ℚ)
    (h : si.is_dynamic = true) :
    alpha_to_tao_with_slippage si a =
      (si.tao_in - si.tao_in * si.alpha_in / (si.alpha_in + a),
       alpha_to_tao si a
         - (si.tao_in - si.tao_in * si.alpha_in / (si.alpha_in + a)),
       if alpha_to_tao si a
           - (si.tao_in - si.tao_in * si.alpha_in / (si.alpha_in + a))
           + (si.tao_in - si.tao_in * si.alpha_in / (si.alpha_in + a)) ≠ 0
       then 100 * (alpha_to_tao si a
           - (si.tao_in - si.tao_in * si.alpha_in / (si.alpha_in + a)))
         / (alpha_to_tao si a
           - (si.tao_in - si.tao_in * si.alpha_in / (si.alpha_in + a))
           + (si.tao_in - si.tao_in * si.alpha_in / (si.alpha_in + a)))
       else 0) := by
  simp only [alpha_to_tao_with_slippage, h, if_true]

/-- C2: for a dynamic subnet with positive reserves and a positive alpha
amount, the swap-with-slippage received amount never exceeds the
no-slippage value and the slippage percentage is non-negative; at reserves
tao_in = 1000 and alpha_in = 500, unstaking 10 alpha has a no-slippage
value of exactly 20 TAO and a swapped value strictly below 20 TAO. -/
theorem dynamic_swap_slippage (si : DynamicInfo) (a : ℚ)
    (hdyn : si.is_dynamic = true) (htao : 0 < si.tao_in)
    (halpha : 0 < si.alpha_in) (ha : 0 < a) :
    (alpha_to_tao_with_slippage si a).1 ≤ alpha_to_tao si a
    ∧ 0 ≤ (alpha_to_tao_with_slippage si a).2.2
    ∧ alpha_to_tao ⟨1, 1000, 500, 0, true⟩ 10 = 20
    ∧ (alpha_to_tao_with_slippage ⟨1, 1000, 500, 0, true⟩ 10).1 < 20 := by
  have hden : (0 : ℚ) < si.alpha_in + a := by linarith
  have hrec : si.tao_in - si.tao_in * si.alpha_in / (si.alpha_in + a)
      = si.tao_in * a / (si.alpha_in + a) := by
    field_simp
    ring
  have hideal : alpha_to_tao si a = si.tao_in * a / si.alpha_in := by
    simp only [alpha_to_tao, DynamicInfo.price, hdyn, if_true]
    ring
  have hle : si.tao_in - si.tao_in * si.alpha_in / (si.alpha_in + a)
      ≤ alpha_to_tao si a := by
    rw [hrec, hideal, div_le_div_iff₀ hden halpha]
    nlinarith [mul_pos htao ha]
  have hidealpos : 0 < alpha_to_tao si a := by
    rw [hideal]
    positivity
  refine ⟨?_, ?_, by norm_num [alpha_to_tao, DynamicInfo.price], ?_⟩
  · rw [alpha_to_tao_with_slippage_dynamic si a hdyn]
    exact hle
  · rw [alpha_to_tao_with_slippage_dynamic si a hdyn]
    have hsum : alpha_to_tao si a
        - (si.tao_in - si.tao_in * si.alpha_in / (si.alpha_in + a))
        + (si.tao_in - si.tao_in * si.alpha_in / (si.alpha_in + a))
        = alpha_to_tao si a := by ring
    simp only [hsum, ne_of_gt hidealpos, ne_eq, not_false_iff, if_true]
    have hslip : 0 ≤ alpha_to_tao si a
        - (si.tao_in - si.tao_in * si.alpha_in / (si.alpha_in + a)) := by
      linarith
    positivity
  · norm_num [alpha_to_tao_with_slippage, alpha_to_tao, DynamicInfo.price]

/-- C2 witness: the spec's example pool itself satisfies the hypotheses. -/
theorem dynamic_swap_slippage_witness :
    (alpha_to_tao_with_slippage ⟨1, 1000, 500, 0, true⟩ 10).1
      ≤ alpha_to_tao ⟨1, 1000, 500, 0, true⟩ 10
    ∧ 0 ≤ (alpha_to_tao_with_slippage ⟨1, 1000, 500, 0, true⟩ 10).2.2
    ∧ alpha_to_tao ⟨1, 1000, 500, 0, true⟩ 10 = 20
    ∧ (alpha_to_tao_with_slippage ⟨1, 1000, 500, 0, true⟩ 10).1 < 20 :=
  dynamic_swap_slippage ⟨1, 1000, 500, 0, true⟩ 10 rfl (by simp) (by simp)
    (by simp)

/-- C4: with safe staking, a queued operation on a dynamic (non-root)
subnet is dispatched through `remove_stake_limit` with the limit price
`subnet price in rao * (1 - rate_tolerance)` together with the partial-fill
flag, and a chain rejection whose `SubstrateRequestException` text contains
"Custom error: 8" is reported with the tailored price-tolerance message
rather than the generic failure message. -/
theorem safe_unstake_limit_price (subnets : ℕ → DynamicInfo)
    (stakes : StakeMap) (tol : ℚ) (amountRao : ℕ) (name : Option String)
    (ss58 : String) (netuid : ℕ) (op : UnstakeOp) (ap : Bool) (msg : String)
    (h : planEntry subnets stakes true tol amountRao name ss58 netuid = .ok op)
    (hn : netuid ≠ 0) (hdyn : (subnets netuid).is_dynamic = true)
    (hmsg : containsSeq customError8.data msg.data = true) :
    dispatchUnstakeOp true ap op =
      .removeStakeLimit ss58 netuid amountRao
        ((subnets netuid).price * (raoPerTao : ℚ) * (1 - tol)) ap
    ∧ safeUnstakeSubmit (.error (.substrateRequest msg)) =
        .ok [.priceToleranceExceeded] := by
  constructor
  · unfold planEntry at h
    cases hl : stakes.lookup ss58 with
    | none => simp only [hl] at h; exact absurd h (by simp)
    | some perNetuid =>
      simp only [hl] at h
      cases hs : perNetuid.lookup netuid with
      | none => simp only [hs] at h; exact absurd h (by simp)
      | some stakeRao =>
        simp only [hs] at h
        split_ifs at h
        injection h with h2
        subst h2
        simp [dispatchUnstakeOp, hn, priceWithTolerance, hdyn]
  · unfold safeUnstakeSubmit
    simp [hmsg]

/-- C4 witness: the fixture operation on dynamic netuid 3 and a rejection
text containing the code-8 marker. -/
theorem safe_unstake_limit_price_witness :
    dispatchUnstakeOp true true fixOp =
      .removeStakeLimit "addr" 3 5000
        ((fixSubnets 3).price * (raoPerTao : ℚ) * (1 - 1 / 100)) true
    ∧ safeUnstakeSubmit
        (.error (.substrateRequest "Subtensor returned: Custom error: 8")) =
      .ok [.priceToleranceExceeded] :=
  safe_unstake_limit_price fixSubnets fixStakes (1 / 100) 5000 none "addr" 3
    fixOp true "Subtensor returned: Custom error: 8" rfl (by decide) rfl
    (by decide)

/-- Helper: operation collection distributes over appending pair lists. -/
theorem collectUnstakeOps_append (sb : ℕ → DynamicInfo) (st : StakeMap)
    (sf : Bool) (tol : ℚ) (a : ℕ)
    (l1 l2 : List (Option String × String × ℕ)) :
    collectUnstakeOps sb st sf tol a (l1 ++ l2) =
      ((collectUnstakeOps sb st sf tol a l1).1
        ++ (collectUnstakeOps sb st sf tol a l2).1,
       (collectUnstakeOps sb st sf tol a l1).2
        ++ (collectUnstakeOps sb st sf tol a l2).2) := by
  induction l1 with
  | nil => simp [collectUnstakeOps]
  | cons e rest ih =>
    obtain ⟨name, ss58, netuid⟩ := e
    simp only [List.cons_append, collectUnstakeOps, ih]
    cases planEntry sb st sf tol a name ss58 netuid <;> simp <;>
      exact ⟨by rw [ih], by rw [ih]⟩

/-- C3: during batch collection, a (hotkey, netuid) pair whose requested
amount exceeds its current stake balance contributes exactly one inline
"not enough stake" error and no queued operation, and the pairs before and
after it are collected exactly as if the bad pair were absent. -/
theorem exceeding_amount_skips_only_that_pair (sb : ℕ → DynamicInfo)
    (st : StakeMap) (sf : Bool) (tol : ℚ) (a : ℕ)
    (pre post : List (Option String × String × ℕ)) (name : Option String)
    (ss58 : String) (netuid : ℕ) (perNetuid : List (ℕ × ℕ)) (stakeRao : ℕ)
    (hhk : st.lookup ss58 = some perNetuid)
    (hst : perNetuid.lookup netuid = some stakeRao)
    (hnz : stakeRao ≠ 0)
    (hex : stakeRao < a) :
    (collectUnstakeOps sb st sf tol a (pre ++ (name, ss58, netuid) :: post)).1
      = (collectUnstakeOps sb st sf tol a (pre ++ post)).1
    ∧ (collectUnstakeOps sb st sf tol a (pre ++ (name, ss58, netuid) :: post)).2
      = (collectUnstakeOps sb st sf tol a pre).2
        ++ PlanError.notEnoughStake ss58 netuid
          :: (collectUnstakeOps sb st sf tol a post).2 := by
  have hbad : planEntry sb st sf tol a name ss58 netuid
      = .error (.notEnoughStake ss58 netuid) := by
    unfold planEntry
    rw [hhk]
    simp [hst, hnz, hex]
  have hcons : collectUnstakeOps sb st sf tol a ((name, ss58, netuid) :: post)
      = ((collectUnstakeOps sb st sf tol a post).1,
         PlanError.notEnoughStake ss58 netuid
           :: (collectUnstakeOps sb st sf tol a post).2) := by
    simp [collectUnstakeOps, hbad]
  have key := collectUnstakeOps_append sb st sf tol a pre
    ((name, ss58, netuid) :: post)
  have key2 := collectUnstakeOps_append sb st sf tol a pre post
  constructor
  · rw [key, key2, hcons]
  · rw [key, hcons]

/-- C3 witness: requesting 600 rao from a 500-rao position on netuid 1 is
skipped with one inline error while the following hotkey is still
collected. -/
theorem exceeding_amount_skips_only_that_pair_witness :
    (collectUnstakeOps fixSubnets [("hk1", [(1, 500)]), ("hk2", [(1, 300)])]
        false 0 600 ([] ++ (none, "hk1", 1) :: [(none, "hk2", 1)])).1
      = (collectUnstakeOps fixSubnets [("hk1", [(1, 500)]), ("hk2", [(1, 300)])]
        false 0 600 ([] ++ [(none, "hk2", 1)])).1
    ∧ (collectUnstakeOps fixSubnets [("hk1", [(1, 500)]), ("hk2", [(1, 300)])]
        false 0 600 ([] ++ (none, "hk1", 1) :: [(none, "hk2", 1)])).2
      = (collectUnstakeOps fixSubnets [("hk1", [(1, 500)]), ("hk2", [(1, 300)])]
        false 0 600 []).2
        ++ PlanError.notEnoughStake "hk1" 1
          :: (collectUnstakeOps fixSubnets [("hk1", [(1, 500)]), ("hk2", [(1, 300)])]
        false 0 600 [(none, "hk2", 1)]).2 :=
  exceeding_amount_skips_only_that_pair fixSubnets
    [("hk1", [(1, 500)]), ("hk2", [(1, 300)])] false 0 600 []
    [(none, "hk2", 1)] none "hk1" 1 [(1, 500)] 500 (by decide) rfl
    (by decide) (by decide)

/-- Helper: the code-point order is asymmetric. -/
theorem charListLt_asymm (a : List Char) : ∀ b : List Char,
    charListLt a b = true → charListLt b a = false := by
  induction a with
  | nil =>
    intro b h
    cases b with
    | nil => simp [charListLt] at h
    | cons c cs => simp [charListLt]
  | cons x xs ih =>
    intro b h
    cases b with
    | nil => simp [charListLt] at h
    | cons y ys =>
      simp only [charListLt] at h ⊢
      rcases Nat.lt_trichotomy x.toNat y.toNat with hlt | heq | hgt
      · simp [hlt, Nat.lt_asymm hlt, Nat.not_lt.mpr (le_of_lt hlt)]
      · simp [heq, Nat.lt_irrefl] at h ⊢
        exact ih ys h
      · simp [hgt, Nat.lt_asymm hgt, Nat.not_lt.mpr (le_of_lt hgt)] at h

/-- Helper: the complement of the code-point order is transitive. -/
theorem charListLt_ge_trans (a : List Char) : ∀ b c : List Char,
    charListLt a b = false → charListLt b c = false →
    charListLt a c = false := by
  induction a with
  | nil =>
    intro b c hab hbc
    cases b with
    | nil =>
      cases c with
      | nil => simp [charListLt]
      | cons z zs => simp [charListLt] at hbc
    | cons y ys => simp [charListLt] at hab
  | cons x xs ih =>
    intro b c hab hbc
    cases b with
    | nil =>
      cases c with
      | nil => simp [charListLt]
      | cons z zs => simp [charListLt] at hbc
    | cons y ys =>
      cases c with
      | nil => simp [charListLt]
      | cons z zs =>
        simp only [charListLt] at hab hbc ⊢
        by_cases h1 : x.toNat < y.toNat
        · simp [h1] at hab
        · by_cases h2 : y.toNat < z.toNat
          · simp [h2] at hbc
          · by_cases h3 : x.toNat < z.toNat
            · omega
            · simp only [h3, if_false]
              by_cases h4 : z.toNat < x.toNat
              · simp [h4]
              · have hyx : ¬ (y.toNat < x.toNat) := by omega
                have hzy : ¬ (z.toNat < y.toNat) := by omega
                simp only [h4, if_false]
                simp only [h1, hyx, if_false] at hab
                simp only [h2, hzy, if_false] at hbc
                exact ih ys zs hab hbc

/-- Helper: the stable descending row order is total. -/
theorem rowDescBy_total (a b : List String) : rowDescBy a b ∨ rowDescBy b a := by
  rcases hab : strLt (emissionCellOf a) (emissionCellOf b) with _ | _
  · exact Or.inl hab
  · exact Or.inr (charListLt_asymm _ _ hab)

/-- Helper: the stable descending row order is transitive. -/
theorem rowDescBy_trans (a b c : List String) (hab : rowDescBy a b)
    (hbc : rowDescBy b c) : rowDescBy a c :=
  charListLt_ge_trans _ _ _ hab hbc

/-- C10: `subnets_list` always places the first fetched subnet's row first,
and orders the remaining rows by descending lexicographic comparison of the
formatted emission cell rather than by numeric emission: the displayed tail
is a permutation of the remaining rows sorted under `rowDescBy`, and on a
concrete fetch the row with emission 9.5 is displayed before the row with
the numerically larger emission 10.25. -/
theorem subnets_list_row_order (gw : ℕ → Option ℕ)
    (subnets : List SubnetData) (s0 : SubnetData) (rest : List SubnetData)
    (h : subnets = s0 :: rest) :
    (sortedSubnetRows gw subnets).head? = some (subnetListRow gw s0)
    ∧ ((sortedSubnetRows gw subnets).tail).Perm (rest.map (subnetListRow gw))
    ∧ List.Sorted rowDescBy ((sortedSubnetRows gw subnets).tail)
    ∧ sortedSubnetRows (fun _ => none) [fixSn0, fixSnA, fixSnB]
      = [subnetListRow (fun _ => none) fixSn0,
         subnetListRow (fun _ => none) fixSnA,
         subnetListRow (fun _ => none) fixSnB]
    ∧ fixSnA.emissionRao < fixSnB.emissionRao := by
  subst h
  haveI htot : IsTotal (List String) rowDescBy := ⟨rowDescBy_total⟩
  haveI htrans : IsTrans (List String) rowDescBy :=
    ⟨fun a b c => rowDescBy_trans a b c⟩
  refine ⟨?_, ?_, ?_, by decide, by decide⟩
  · simp [sortedSubnetRows]
  · simp only [sortedSubnetRows, List.map_cons, List.tail_cons]
    exact List.perm_insertionSort rowDescBy _
  · simp only [sortedSubnetRows, List.map_cons, List.tail_cons]
    exact List.sorted_insertionSort rowDescBy _

/-- C10 witness: the three-subnet fixture list instantiates the theorem. -/
theorem subnets_list_row_order_witness :
    (sortedSubnetRows (fun _ => none) [fixSn0, fixSnA, fixSnB]).head?
      = some (subnetListRow (fun _ => none) fixSn0)
    ∧ ((sortedSubnetRows (fun _ => none) [fixSn0, fixSnA, fixSnB]).tail).Perm
        ([fixSnA, fixSnB].map (subnetListRow (fun _ => none)))
    ∧ List.Sorted rowDescBy
        ((sortedSubnetRows (fun _ => none) [fixSn0, fixSnA, fixSnB]).tail)
    ∧ sortedSubnetRows (fun _ => none) [fixSn0, fixSnA, fixSnB]
      = [subnetListRow (fun _ => none) fixSn0,
         subnetListRow (fun _ => none) fixSnA,
         subnetListRow (fun _ => none) fixSnB]
    ∧ fixSnA.emissionRao < fixSnB.emissionRao :=
  subnets_list_row_order (fun _ => none) [fixSn0, fixSnA, fixSnB] fixSn0
    [fixSnA, fixSnB] rfl

theorem hexVal_hexDigitChar (d : ℕ) (h : d < 16) :
    hexVal (hexDigitChar d) = some d := by
  interval_cases d <;> rfl

theorem char_valid_nat (c : Char) :
    c.toNat < 55296 ∨ (57344 ≤ c.toNat ∧ c.toNat < 1114112) := by
  have h := c.valid
  rcases h with h | h
  · left; exact h
  · right; exact h

theorem parseStrBody_escapeChar (c : Char) (rest : List Char)
    (hbmp : c.toNat < 65536) :
    parseStrBody (escapeChar c ++ rest)
      = (parseStrBody rest).map (fun p => (c :: p.1, p.2)) := by
  unfold escapeChar
  split_ifs with h1 h2 h3 h4 h5 h6 h7 h8
  · subst h1
    rw [parseStrBody.eq_def]
    simp +decide only [unescapeChar, reduceIte, List.cons_append, List.nil_append]
  · subst h2
    rw [parseStrBody.eq_def]
    simp +decide only [unescapeChar, reduceIte, List.cons_append, List.nil_append]
  · subst h3
    rw [parseStrBody.eq_def]
    simp +decide only [unescapeChar, reduceIte, List.cons_append, List.nil_append]
  · subst h4
    rw [parseStrBody.eq_def]
    simp +decide only [unescapeChar, reduceIte, List.cons_append, List.nil_append]
  · subst h5
    rw [parseStrBody.eq_def]
    simp +decide only [unescapeChar, reduceIte, List.cons_append, List.nil_append]
  · subst h6
    rw [parseStrBody.eq_def]
    simp +decide only [unescapeChar, reduceIte, List.cons_append, List.nil_append]
  · subst h7
    rw [parseStrBody.eq_def]
    simp +decide only [unescapeChar, reduceIte, List.cons_append, List.nil_append]
  · have hd1 : c.toNat / 4096 % 16 < 16 := Nat.mod_lt _ (by norm_num)
    have hd2 : c.toNat / 256 % 16 < 16 := Nat.mod_lt _ (by norm_num)
    have hd3 : c.toNat / 16 % 16 < 16 := Nat.mod_lt _ (by norm_num)
    have hd4 : c.toNat % 16 < 16 := Nat.mod_lt _ (by norm_num)
    simp only [hex4, List.cons_append, List.nil_append]
    rw [parseStrBody.eq_def]
    simp +decide only [reduceIte]
    rw [hexVal_hexDigitChar _ hd1, hexVal_hexDigitChar _ hd2,
      hexVal_hexDigitChar _ hd3, hexVal_hexDigitChar _ hd4]
    have hsum : c.toNat / 4096 % 16 * 4096 + c.toNat / 256 % 16 * 256
        + c.toNat / 16 % 16 * 16 + c.toNat % 16 = c.toNat := by omega
    simp only [hsum, char_valid_nat c, if_pos, Char.ofNat_toNat, if_true]
  · rw [parseStrBody.eq_def]
    simp only [List.cons_append, List.nil_append]
    rw [if_neg h1, if_neg h2]

theorem parseStrBody_escList (cs : List Char) (rest : List Char)
    (h : ∀ c ∈ cs, c.toNat < 65536) :
    parseStrBody ((cs.map escapeChar).flatten ++ ('"' :: rest))
      = some (cs, rest) := by
  induction cs with
  | nil =>
    rw [parseStrBody.eq_def]
    simp +decide only [List.map_nil, List.flatten_nil, List.nil_append, reduceIte]
  | cons c cs ih =>
    simp only [List.map_cons, List.flatten_cons, List.append_assoc]
    rw [parseStrBody_escapeChar c _ (h c (by simp))]
    rw [ih (fun x hx => h x (by simp [hx]))]
    rfl

theorem parseStrBody_dumpTail (s : String) (rest : List Char)
    (h : ∀ c ∈ s.data, c.toNat < 65536) :
    parseStrBody (escBody s ++ ('"' :: rest)) = some (s.data, rest) :=
  parseStrBody_escList s.data rest h

theorem dumpString_eq (s : String) (tail : List Char) :
    dumpString s ++ tail = '"' :: (escBody s ++ ('"' :: tail)) := by
  simp [dumpString]

theorem sepJoin_cons₂ (a b : List Char) (cs : List (List Char)) :
    sepJoin (a :: b :: cs) = a ++ (',' :: ' ' :: sepJoin (b :: cs)) := by
  simp [sepJoin]

theorem parseRowElems_sep (xs : List String) : ∀ (x : String) (fuel : ℕ)
    (rest : List Char),
    (∀ s ∈ x :: xs, ∀ c ∈ s.data, c.toNat < 65536) →
    xs.length < fuel →
    parseRowElems fuel (sepJoin ((x :: xs).map dumpString) ++ (']' :: rest))
      = some ((x :: xs).map String.data, rest) := by
  induction xs with
  | nil =>
    intro x fuel rest hbmp hfuel
    obtain ⟨f, rfl⟩ : ∃ f, fuel = f + 1 := ⟨fuel - 1, by omega⟩
    simp only [List.map_cons, List.map_nil, sepJoin, List.flatten_nil,
      List.append_nil]
    rw [dumpString_eq]
    rw [parseRowElems.eq_def]
    simp +decide only [reduceIte]
    rw [parseStrBody_dumpTail x _ (hbmp x (by simp))]
    rfl
  | cons y ys ih =>
    intro x fuel rest hbmp hfuel
    obtain ⟨f, rfl⟩ : ∃ f, fuel = f + 1 := ⟨fuel - 1, by omega⟩
    simp only [List.map_cons]
    rw [sepJoin_cons₂]
    simp only [List.append_assoc, List.cons_append]
    rw [dumpString_eq]
    rw [parseRowElems.eq_def]
    simp +decide only [reduceIte]
    rw [parseStrBody_dumpTail x _ (hbmp x (by simp))]
    show Option.map (fun p => (x.data :: p.1, p.2))
      (parseRowElems f (sepJoin (List.map dumpString (y :: ys)) ++ ']' :: rest))
      = some (x.data :: y.data :: List.map String.data ys, rest)
    rw [ih y f rest (fun s hs c hc => hbmp s (by simp at hs ⊢; tauto) c hc)
      (by simpa using Nat.lt_of_succ_lt_succ hfuel)]
    rfl

theorem parseRow_dumpRow (r : List String) (fuel : ℕ) (rest : List Char)
    (hbmp : ∀ s ∈ r, ∀ c ∈ s.data, c.toNat < 65536)
    (hfuel : r.length ≤ fuel) :
    parseRow fuel (dumpRow r ++ rest) = some (r.map String.data, rest) := by
  cases r with
  | nil =>
    rw [dumpRow]
    rw [parseRow.eq_def]
    simp [sepJoin]
  | cons x xs =>
    rw [dumpRow]
    simp only [List.cons_append, List.append_assoc, List.nil_append]
    rw [parseRow.eq_def]
    have hjoin : sepJoin (List.map dumpString (x :: xs)) ++ (']' :: rest)
        = (sepJoin (List.map dumpString (x :: xs)) ++ [']']) ++ rest := by
      simp
    have hshape : ∃ t, sepJoin (List.map dumpString (x :: xs)) = '"' :: t := by
      cases xs with
      | nil => exact ⟨escBody x ++ ['"'], by simp [sepJoin, dumpString]⟩
      | cons y ys =>
        refine ⟨escBody x
          ++ ('"' :: (',' :: ' ' :: sepJoin (dumpString y :: List.map dumpString ys))), ?_⟩
        simp only [List.map_cons]
        rw [sepJoin_cons₂]
        simp [dumpString]
    obtain ⟨t, ht⟩ := hshape
    rw [ht]
    show parseRowElems fuel ('"' :: t ++ ']' :: rest) = some (List.map String.data (x :: xs), rest)
    rw [← ht]
    exact parseRowElems_sep xs x fuel rest hbmp (by simpa using hfuel)

theorem map_mk_data (r : List String) :
    List.map (fun cs => (⟨cs⟩ : String)) (List.map String.data r) = r := by
  induction r with
  | nil => rfl
  | cons s ss ih =>
    simp only [List.map_cons]
    rw [ih]

theorem parseTableElems_sep (rs : List (List String)) : ∀ (r : List String)
    (rowFuel fuel : ℕ) (rest : List Char),
    (∀ row ∈ r :: rs, ∀ s ∈ row, ∀ c ∈ s.data, c.toNat < 65536) →
    (∀ row ∈ r :: rs, row.length ≤ rowFuel) →
    rs.length < fuel →
    parseTableElems rowFuel fuel (sepJoin ((r :: rs).map dumpRow) ++ (']' :: rest))
      = some (r :: rs, rest) := by
  induction rs with
  | nil =>
    intro r rowFuel fuel rest hbmp hrow hfuel
    obtain ⟨f, rfl⟩ : ∃ f, fuel = f + 1 := ⟨fuel - 1, by omega⟩
    simp only [List.map_cons, List.map_nil, sepJoin, List.flatten_nil,
      List.append_nil]
    rw [parseTableElems.eq_def]
    dsimp only
    rw [parseRow_dumpRow r rowFuel _ (hbmp r (by simp)) (hrow r (by simp))]
    show some ([List.map (fun cs => (⟨cs⟩ : String)) (List.map String.data r)],
      rest) = some ([r], rest)
    rw [map_mk_data]
  | cons q qs ih =>
    intro r rowFuel fuel rest hbmp hrow hfuel
    obtain ⟨f, rfl⟩ : ∃ f, fuel = f + 1 := ⟨fuel - 1, by omega⟩
    simp only [List.map_cons]
    rw [sepJoin_cons₂]
    simp only [List.append_assoc, List.cons_append]
    rw [parseTableElems.eq_def]
    dsimp only
    rw [parseRow_dumpRow r rowFuel _ (hbmp r (by simp)) (hrow r (by simp))]
    show Option.map
        (fun p => (List.map (fun cs => (⟨cs⟩ : String)) (List.map String.data r)
          :: p.1, p.2))
        (parseTableElems rowFuel f
          (sepJoin (dumpRow q :: List.map dumpRow qs) ++ ']' :: rest))
      = some (r :: q :: qs, rest)
    rw [← List.map_cons dumpRow q qs]
    rw [ih q rowFuel f rest
      (fun row hr s hs c hc => hbmp row (by simp at hr ⊢; tauto) s hs c hc)
      (fun row hr => hrow row (by simp at hr ⊢; tauto))
      (by simpa using Nat.lt_of_succ_lt_succ hfuel)]
    rw [map_mk_data]
    rfl

theorem sepJoin_count_le (xs : List (List Char))
    (h : ∀ x ∈ xs, 1 ≤ x.length) : xs.length ≤ (sepJoin xs).length := by
  induction xs with
  | nil => simp [sepJoin]
  | cons a bs ih =>
    cases bs with
    | nil => simpa [sepJoin] using h a (by simp)
    | cons b cs =>
      rw [sepJoin_cons₂]
      have ha := h a (by simp)
      have hb := ih (fun x hx => h x (by simp at hx ⊢; tauto))
      simp only [List.length_append, List.length_cons] at hb ⊢
      omega

theorem sepJoin_mem_le (xs : List (List Char)) (x : List Char) :
    x ∈ xs → x.length ≤ (sepJoin xs).length := by
  induction xs with
  | nil => intro hx; cases hx
  | cons a bs ih =>
    intro hx
    rcases List.mem_cons.mp hx with rfl | hmem
    · cases bs with
      | nil => simp [sepJoin]
      | cons b cs =>
        rw [sepJoin_cons₂]
        simp
    · cases bs with
      | nil => cases hmem
      | cons b cs =>
        rw [sepJoin_cons₂]
        have := ih hmem
        simp only [List.length_append, List.length_cons] at this ⊢
        omega

theorem one_le_dumpString_length (s : String) : 1 ≤ (dumpString s).length := by
  simp [dumpString]

theorem dumpRow_length_ge (r : List String) :
    r.length + 1 ≤ (dumpRow r).length := by
  have h := sepJoin_count_le (r.map dumpString) (fun x hx => by
    obtain ⟨s, hs, rfl⟩ := List.mem_map.mp hx
    exact one_le_dumpString_length s)
  simp only [List.length_map] at h
  simp only [dumpRow, List.length_cons, List.length_append]
  omega

/-- C8: the metagraph reuse-last cache write/read round-trip: reading back
via `json.loads` the row strings stored via `json.dumps` in the metadata
table returns exactly the original `table_data` rows, so a cached run
renders identical table contents.  The hypothesis restricts cells to
basic-plane characters, which covers every cell format the metagraph
emits (the writer would emit surrogate pairs beyond the basic plane). -/
theorem pyJsonLoads_pyJsonDumps (rows : List (List String))
    (hbmp : ∀ row ∈ rows, ∀ s ∈ row, ∀ c ∈ s.data, c.toNat < 65536) :
    pyJsonLoads (pyJsonDumps rows) = some rows := by
  cases rows with
  | nil => rfl
  | cons r rs =>
    have hdata : (pyJsonDumps (r :: rs)).data
        = '[' :: (sepJoin ((r :: rs).map dumpRow) ++ [']']) := rfl
    have hform : ∃ t, sepJoin ((r :: rs).map dumpRow) = '[' :: t := by
      cases rs with
      | nil =>
        exact ⟨sepJoin (r.map dumpString) ++ [']'], by simp [sepJoin, dumpRow]⟩
      | cons q qs =>
        refine ⟨(sepJoin (r.map dumpString) ++ [']'])
          ++ (',' :: ' ' :: sepJoin (dumpRow q :: qs.map dumpRow)), ?_⟩
        simp only [List.map_cons]
        rw [sepJoin_cons₂]
        simp [dumpRow]
    obtain ⟨t, ht⟩ := hform
    have hcount : ∀ x ∈ (r :: rs).map dumpRow, 1 ≤ x.length := by
      intro x hx
      obtain ⟨row, hrow, rfl⟩ := List.mem_map.mp hx
      have := dumpRow_length_ge row
      omega
    have hlen : (pyJsonDumps (r :: rs)).data.length
        = (sepJoin ((r :: rs).map dumpRow)).length + 2 := by
      rw [hdata]
      simp
    have hfuel : rs.length < (pyJsonDumps (r :: rs)).data.length := by
      have h1 := sepJoin_count_le ((r :: rs).map dumpRow) hcount
      simp only [List.length_map, List.length_cons] at h1
      omega
    have hrowfuel : ∀ row ∈ r :: rs,
        row.length ≤ (pyJsonDumps (r :: rs)).data.length := by
      intro row hrow
      have h1 := sepJoin_mem_le ((r :: rs).map dumpRow) (dumpRow row)
        (List.mem_map.mpr ⟨row, hrow, rfl⟩)
      have h2 := dumpRow_length_ge row
      omega
    rw [pyJsonLoads.eq_def]
    generalize hL : (pyJsonDumps (r :: rs)).data.length = L
    rw [hL] at hfuel hrowfuel
    rw [hdata, ht]
    simp only [List.cons_append]
    show (match parseTableElems L L ('[' :: (t ++ [']'])) with
      | some (tb, []) => some tb
      | _ => none) = some (r :: rs)
    rw [show ('[' :: (t ++ [']'])) = (('[' :: t) ++ (']' :: [])) from by simp]
    rw [← ht]
    rw [parseTableElems_sep rs r L L [] hbmp hrowfuel hfuel]

/-- C8 witness: a concrete metagraph-style cache round-trips exactly. -/
theorem pyJsonLoads_pyJsonDumps_witness :
    pyJsonLoads (pyJsonDumps
      [["0", "123.4567", "10.0000", "0.00001", "*", "", "12",
        "1.2.3.4:8091", "5HGjWaEnp", "5F3sa2xW"],
       ["1", "3.5000", "0.0000", "0.00000", "", "[light_goldenrod2]none[/light_goldenrod2]", "0",
        "ERROR", "5DAAnrj9", "5GrwvaEF"]])
      = some
      [["0", "123.4567", "10.0000", "0.00001", "*", "", "12",
        "1.2.3.4:8091", "5HGjWaEnp", "5F3sa2xW"],
       ["1", "3.5000", "0.0000", "0.00000", "", "[light_goldenrod2]none[/light_goldenrod2]", "0",
        "ERROR", "5DAAnrj9", "5GrwvaEF"]] :=
  pyJsonLoads_pyJsonDumps
      [["0", "123.4567", "10.0000", "0.00001", "*", "", "12",
        "1.2.3.4:8091", "5HGjWaEnp", "5F3sa2xW"],
       ["1", "3.5000", "0.0000", "0.00000", "", "[light_goldenrod2]none[/light_goldenrod2]", "0",
        "ERROR", "5DAAnrj9", "5GrwvaEF"]]
    (by decide)
